import Mathlib

/-!
Shallow embedding of the interactive Sudoku core of the bevy-sudoku
repository: the per-cell value model and its transition functions
(src/input/input_mode.rs, src/logic/board.rs), the selection state machine
driven by click events (src/input/actions.rs), keyboard erase
(src/input/keyboard.rs), square computation (src/logic/board.rs) and the
spatial cell index (src/input/board.rs).

ECS queries iterate entities in an unspecified order; they are embedded as
lists, with theorems quantified over every list and hence over every
iteration order.  Machine integers (u8 digits, usize counts) stay far from
their bounds in this program and are embedded as Nat.  The f32 screen
coordinates of bounding boxes enter only through order comparisons, and are
embedded as rationals.
-/

namespace BevySudoku

/-- CenterMarks from src/logic/board.rs: the value of this cell could be any
of the possibilities written in the center of the cell.  The Rust HashSet of
u8 is embedded as a Finset of Nat; HashSet equality is set equality. -/
structure CenterMarks where
  marks : Finset ℕ
deriving DecidableEq

/-- CornerMarks from src/logic/board.rs: the values marked in the corner of
this cell must occur in these cells within the square. -/
structure CornerMarks where
  marks : Finset ℕ
deriving DecidableEq

/-- CenterMarks::default(): the empty set of center marks. -/
def CenterMarks.default : CenterMarks := ⟨∅⟩

/-- CenterMarks::new(num): a set with only the entered value as contents. -/
def CenterMarks.new (num : ℕ) : CenterMarks := ⟨{num}⟩

/-- CenterMarks::update(num): removes num if present, otherwise inserts it. -/
def CenterMarks.update (m : CenterMarks) (num : ℕ) : CenterMarks :=
  if num ∈ m.marks then ⟨m.marks.erase num⟩ else ⟨insert num m.marks⟩

/-- CornerMarks::default(): the empty set of corner marks. -/
def CornerMarks.default : CornerMarks := ⟨∅⟩

/-- CornerMarks::new(num): a set with only the entered value as contents. -/
def CornerMarks.new (num : ℕ) : CornerMarks := ⟨{num}⟩

/-- CornerMarks::update(num): removes num if present, otherwise inserts it. -/
def CornerMarks.update (m : CornerMarks) (num : ℕ) : CornerMarks :=
  if num ∈ m.marks then ⟨m.marks.erase num⟩ else ⟨insert num m.marks⟩

/-- Value from src/logic/board.rs: the number(s) marked inside of each cell. -/
inductive Value where
  /-- No value is filled in this cell. -/
  | Empty : Value
  /-- A single value is known to be in this cell. -/
  | Filled (digit : ℕ) : Value
  /-- Partial information about the state of this cell. -/
  | Marked (center : CenterMarks) (corner : CornerMarks) : Value
deriving DecidableEq

/-- Value::cleanup from src/logic/board.rs: converts empty marks into an
empty cell state. -/
def Value.cleanup (v : Value) : Value :=
  let empty_marks := Value.Marked CenterMarks.default CornerMarks.default
  if v = empty_marks then Value.Empty else v

/-- InputMode from src/input/input_mode.rs: different ways to enter a number
into a cell. -/
inductive InputMode where
  | Fill : InputMode
  | CenterMark : InputMode
  | CornerMark : InputMode
deriving DecidableEq

/-- update_value_fill from src/input/input_mode.rs (an identical copy lives
in src/input/actions.rs). -/
def update_value_fill (old_value : Value) (new_num : ℕ) : Value :=
  match old_value with
  | Value.Empty => Value.Filled new_num
  | Value.Marked _ _ => Value.Filled new_num
  | Value.Filled old =>
    if old = new_num then Value.Empty else Value.Filled new_num

/-- update_value_center from src/input/input_mode.rs. -/
def update_value_center (old_value : Value) (num : ℕ) : Value :=
  match old_value with
  | Value.Empty => Value.Marked (CenterMarks.new num) CornerMarks.default
  | Value.Marked center corner => Value.Marked (center.update num) corner
  | Value.Filled _ => Value.Marked (CenterMarks.new num) CornerMarks.default

/-- update_value_corner from src/input/input_mode.rs. -/
def update_value_corner (old_value : Value) (num : ℕ) : Value :=
  match old_value with
  | Value.Empty => Value.Marked CenterMarks.default (CornerMarks.new num)
  | Value.Marked center corner => Value.Marked center (corner.update num)
  | Value.Filled _ => Value.Marked CenterMarks.default (CornerMarks.new num)

/-- Coordinates from src/logic/board.rs: row and column between 1 and 9,
square derived. -/
structure Coordinates where
  row : ℕ
  column : ℕ
  square : ℕ
deriving DecidableEq

/-- Coordinates::compute_square from src/logic/board.rs (identical copies in
src/main.rs and src/board.rs): computes which 3x3 square a cell is in based
on its row and column.  WIDTH = 3. -/
def Coordinates.compute_square (row column : ℕ) : ℕ :=
  let major_row := (row - 1) / 3
  let major_col := (column - 1) / 3
  major_col + major_row * 3 + 1

/-- The 3x3 block index under standard left-to-right, top-to-bottom reading
order, stated from the spec for comparison with compute_square: rows are
counted from the top and columns from the left, so blocks 1-3 form the top
band of rows 1-3, blocks 4-6 the middle band, blocks 7-9 the bottom band. -/
def readingOrderSquare (row column : ℕ) : ℕ :=
  3 * ((row - 1) / 3) + (column - 1) / 3 + 1

/-- The state of one cell as seen by the value-mutating systems: its Value
component and its Fixed component (Fixed(pub bool) in src/logic/board.rs). -/
abbrev ValueCell := Value × Bool

namespace Actions

/-- set_cell_value from src/input/actions.rs, lines 11-35, applied to one
CellInput event: the query over selected cells is embedded as a list in
iteration order.  The source body is, per selected cell, first
if is_fixed.0 then break — which aborts the whole loop, leaving every
remaining cell untouched — and otherwise stores the result of the
mode-dispatched update function.  This revision stores the CenterMark and
CornerMark results directly, without cleanup. -/
def set_cell_value (input_mode : InputMode) (num : ℕ) :
    List ValueCell → List ValueCell
  | [] => []
  | (old_value, is_fixed) :: rest =>
    if is_fixed then (old_value, is_fixed) :: rest
    else
      (match input_mode with
       | InputMode.Fill => update_value_fill old_value num
       | InputMode.CenterMark => update_value_center old_value num
       | InputMode.CornerMark => update_value_corner old_value num,
       is_fixed) :: set_cell_value input_mode num rest

end Actions

namespace LogicBoard

/-- set_cell_value from src/logic/board.rs, lines 164-188 (the revision whose
CenterMark and CornerMark arms pass the result through Value::cleanup before
storing), applied to one CellInput event over the selected cells in
iteration order.  As in the actions.rs copy, a fixed cell hits break. -/
def set_cell_value (input_mode : InputMode) (num : ℕ) :
    List ValueCell → List ValueCell
  | [] => []
  | (old_value, is_fixed) :: rest =>
    if is_fixed then (old_value, is_fixed) :: rest
    else
      (match input_mode with
       | InputMode.Fill => update_value_fill old_value num
       | InputMode.CenterMark => (update_value_center old_value num).cleanup
       | InputMode.CornerMark => (update_value_corner old_value num).cleanup,
       is_fixed) :: set_cell_value input_mode num rest

end LogicBoard

/-- erase_selected_cells from src/input/keyboard.rs, lines 76-87, with the
Delete or Backspace key just pressed: every selected cell with
is_fixed.0 = false is set to Value::Empty; fixed cells are left alone by a
per-cell if, and iteration continues. -/
def erase_selected_cells (cells : List ValueCell) : List ValueCell :=
  cells.map fun c => if c.2 then c else (Value.Empty, c.2)

/-- CellClick from src/input/board.rs: selected_cell is Some(entity) if a
cell was clicked, otherwise None; multi selects multiple cells at once; drag
records whether the mouse was dragged.  Entities are embedded as indices
into the board list. -/
structure CellClick where
  selected_cell : Option ℕ
  multi : Bool
  drag : Bool

/-- The state of one cell as seen by handle_clicks: whether the Selected
marker component is present, and its Value component. -/
abbrev ClickCell := Bool × Value

/-- Sets the Selected flag of the cell at one index, leaving every other
cell alone: the effect of a single commands.entity(e).insert(Selected) or
remove::(Selected) on the board list.  Out of range, it is a no-op. -/
def set_selected : List ClickCell → ℕ → Bool → List ClickCell
  | [], _, _ => []
  | c :: rest, 0, sel => (sel, c.2) :: rest
  | c :: rest, i + 1, sel => c :: set_selected rest i sel

/-- Removes Selected from every cell, as done by the loops over
cell_query that remove the Selected component from each entity. -/
def clear_selection (board : List ClickCell) : List ClickCell :=
  board.map fun c => (false, c.2)

/-- The count of currently selected cells, as computed by
cell_query.iter().filter(maybe_selected.is_some()).count(). -/
def n_selected (board : List ClickCell) : ℕ :=
  (board.filter fun c => c.1).length

namespace Actions

/-- handle_clicks from src/input/actions.rs, lines 38-102, applied to one
CellClick event.  None target: remove Selected everywhere.  Drag: insert
Selected on the target.  Multi: toggle the target.  Otherwise count the
selected cells, clear the selection, and either select every cell whose
Value equals the value of the clicked cell (when it was already selected
and at most one cell was selected) or select the clicked cell alone.  The
expect on cell_query.get panics when the clicked entity is not a cell;
that failure is embedded as none. -/
def handle_clicks (board : List ClickCell) (click : CellClick) :
    Option (List ClickCell) :=
  match click.selected_cell with
  | none => some (clear_selection board)
  | some i =>
    if click.drag then
      some (set_selected board i true)
    else
      match board.get? i with
      | none => none
      | some (was_selected, current_value) =>
        if click.multi then
          some (set_selected board i (!was_selected))
        else
          if was_selected = true ∧ n_selected board ≤ 1 then
            some (board.map fun c => (decide (c.2 = current_value), c.2))
          else
            some (set_selected (clear_selection board) i true)

end Actions

/-- BoundingBox from src/input/board.rs: the axis-aligned rectangle that
contains a cell, given by its bottom_left and top_right corners.  The f32
Vec2 is embedded as a pair of rationals. -/
structure BoundingBox where
  bottom_left : ℚ × ℚ
  top_right : ℚ × ℚ

/-- The in_bounds test of CellIndex::get: position.cmpge(bottom_left) and
position.cmple(top_right) componentwise, then all(), i.e. containment with
inclusive bounds on both axes. -/
def in_bounds (box : BoundingBox) (position : ℚ × ℚ) : Bool :=
  (decide (box.bottom_left.1 ≤ position.1) &&
    decide (box.bottom_left.2 ≤ position.2)) &&
  (decide (position.1 ≤ box.top_right.1) &&
    decide (position.2 ≤ box.top_right.2))

/-- CellIndex::get from src/input/board.rs, lines 79-98: a linear scan over
the indexed boxes (the HashMap iteration is embedded as an association list
in iteration order) returning the first entity whose box contains the
position, or None when no box does. -/
def CellIndex.get : List (ℕ × BoundingBox) → ℚ × ℚ → Option ℕ
  | [], _ => none
  | (entity, bounding_box) :: rest, position =>
    if in_bounds bounding_box position then some entity
    else CellIndex.get rest position

/-- A sample bounding box for exercising CellIndex.get on concrete input. -/
def demoBox : BoundingBox := ⟨(0, 0), (10, 10)⟩

/-- A board of seven cells: a sole selected Filled 7 cell, five other
Filled 7 cells, and one Filled 3 cell, for exercising match-select. -/
def sevensBoard : List ClickCell :=
  [(true, Value.Filled 7), (false, Value.Filled 7), (false, Value.Filled 7),
   (false, Value.Filled 7), (false, Value.Filled 7), (false, Value.Filled 7),
   (false, Value.Filled 3)]

/-- A board with a sole selected Empty cell, a Filled cell, a Marked cell
and another Empty cell, for exercising match-select on an Empty value. -/
def emptiesBoard : List ClickCell :=
  [(true, Value.Empty), (false, Value.Filled 2),
   (false, Value.Marked (CenterMarks.new 5) CornerMarks.default),
   (false, Value.Empty)]

/- ------------------------------------------------------------------ -/
/- Claim theorems.                                                     -/
/- ------------------------------------------------------------------ -/

/-- C1: evaluation of the code at the failing input.  Claim C1 states that
each selected cell is processed independently, a Fixed cell being skipped
for that cell only.  The set_cell_value loop in src/input/actions.rs
instead hits break at the first fixed cell in iteration order, so with the
selection iterated as a fixed Filled 1 cell followed by a non-fixed Empty
cell, a Fill-mode digit 5 leaves the second cell Empty instead of storing
Filled 5 in it.  The erase path of src/input/keyboard.rs, by contrast, uses
a per-cell guard and does update the later non-fixed cell. -/
theorem C1_fixed_break_blocks_remaining_cells :
    Actions.set_cell_value InputMode.Fill 5
        [(Value.Filled 1, true), (Value.Empty, false)]
      = [(Value.Filled 1, true), (Value.Empty, false)]
    ∧ erase_selected_cells [(Value.Filled 1, true), (Value.Filled 2, false)]
      = [(Value.Filled 1, true), (Value.Empty, false)] :=
  ⟨rfl, rfl⟩

/-- C2: evaluation of the code at the failing input.  Claim C2 states that
every mutation able to produce a Marked value with two empty mark-sets
normalizes it to Empty before storing.  The set_cell_value registered by
src/input/mod.rs line 55 is the one in src/input/actions.rs, whose
CenterMark and CornerMark arms (lines 30-31) store the update result
without Value::cleanup: starting from a sole selected non-fixed Empty cell,
two CenterMark digit-3 events reach Marked with the mark 3 and then store
the un-normalized Marked value with both mark-sets empty.  The later
revision in src/logic/board.rs adds the cleanup call the claim describes. -/
theorem C2_center_mark_stores_unnormalized :
    Actions.set_cell_value InputMode.CenterMark 3
        (Actions.set_cell_value InputMode.CenterMark 3 [(Value.Empty, false)])
      = [(Value.Marked CenterMarks.default CornerMarks.default, false)] := by
  decide

/-- C3 counterexample: at row 4, column 1, compute_square returns 4 (the
second band, first stack, in reading order) while the formula of the claim,
floor((row-1)/3) + 3*floor((column-1)/3) + 1, gives 2 — the claim has the
roles of row and column swapped. -/
theorem C3_formula_counterexample :
    ¬ (Coordinates.compute_square 4 1 = (4 - 1) / 3 + 3 * ((1 - 1) / 3) + 1) := by
  decide

/-- C3 amended: for every row and column in 1..9,
compute_square(row, column) = 3*floor((row-1)/3) + floor((column-1)/3) + 1
(the row index selects the band of three, the column index the position
within the band). -/
theorem C3_compute_square_formula (row column : ℕ)
    (_h1 : 1 ≤ row) (_h2 : row ≤ 9) (_h3 : 1 ≤ column) (_h4 : column ≤ 9) :
    Coordinates.compute_square row column
      = 3 * ((row - 1) / 3) + (column - 1) / 3 + 1 := by
  simp only [Coordinates.compute_square]
  omega

/-- Witness for C3 amended at row 4, column 1. -/
theorem C3_compute_square_formula_witness :
    Coordinates.compute_square 4 1 = 3 * ((4 - 1) / 3) + (1 - 1) / 3 + 1 :=
  C3_compute_square_formula 4 1 (by decide) (by decide) (by decide) (by decide)

/-- C4: over all 81 pairs with row and column in 1..9, compute_square agrees
with the standard left-to-right, top-to-bottom reading-order block
numbering, and in particular compute_square(4, 5) = 5. -/
theorem C4_reading_order_square :
    (∀ row ∈ Finset.Icc 1 9, ∀ column ∈ Finset.Icc 1 9,
      Coordinates.compute_square row column = readingOrderSquare row column)
    ∧ Coordinates.compute_square 4 5 = 5 := by
  decide

/-- C5: a non-drag, non-multi click on a cell that is currently selected
while at most one cell is selected match-selects: the resulting board is
exactly the one in which a cell is selected iff its Value equals the
clicked cell's current Value, equality being full Value equality. -/
theorem C5_match_select (board : List ClickCell) (i : ℕ) (v : Value)
    (hget : board[i]? = some (true, v))
    (hcount : n_selected board ≤ 1) :
    Actions.handle_clicks board ⟨some i, false, false⟩
      = some (board.map fun c => (decide (c.2 = v), c.2)) := by
  simp [Actions.handle_clicks, hget, hcount]

/-- Witness for C5: double-clicking the lone selected Filled 7 cell on a
board with five other Filled 7 cells and one Filled 3 cell selects exactly
the six Filled 7 cells. -/
theorem C5_match_select_witness :
    Actions.handle_clicks sevensBoard ⟨some 0, false, false⟩
      = some [(true, Value.Filled 7), (true, Value.Filled 7),
              (true, Value.Filled 7), (true, Value.Filled 7),
              (true, Value.Filled 7), (true, Value.Filled 7),
              (false, Value.Filled 3)] := by
  rw [C5_match_select sevensBoard 0 (Value.Filled 7) rfl (by decide)]
  decide

/-- C6: for every digit d in 1..9, center-marking the same digit twice from
Empty, each step passed through Value::cleanup as in the CenterMark arm of
set_cell_value in src/logic/board.rs, yields Empty again rather than an
empty Marked value. -/
theorem C6_center_mark_double_toggle (d : ℕ) (_h1 : 1 ≤ d) (_h2 : d ≤ 9) :
    (update_value_center ((update_value_center Value.Empty d).cleanup) d).cleanup
      = Value.Empty := by
  have hne : ({d} : Finset ℕ) ≠ (∅ : Finset ℕ) := Finset.singleton_ne_empty d
  simp [update_value_center, Value.cleanup, CenterMarks.new, CenterMarks.update,
    CenterMarks.default, CornerMarks.default, hne]

/-- Witness for C6 at d = 3, the scenario of the spec. -/
theorem C6_center_mark_double_toggle_witness :
    (update_value_center ((update_value_center Value.Empty 3).cleanup) 3).cleanup
      = Value.Empty :=
  C6_center_mark_double_toggle 3 (by decide) (by decide)

/-- C7: for digits d1 and d2 in 1..9 with d1 distinct from d2, filling d1
twice from Empty returns Empty (fill is a toggle on the same digit), while
filling d1 then d2 from Empty returns Filled d2 (a different digit
overwrites). -/
theorem C7_fill_toggle_and_overwrite (d1 d2 : ℕ)
    (_h1 : 1 ≤ d1) (_h2 : d1 ≤ 9) (_h3 : 1 ≤ d2) (_h4 : d2 ≤ 9)
    (hne : d1 ≠ d2) :
    update_value_fill (update_value_fill Value.Empty d1) d1 = Value.Empty
    ∧ update_value_fill (update_value_fill Value.Empty d1) d2
      = Value.Filled d2 := by
  constructor
  · simp [update_value_fill]
  · simp [update_value_fill, hne]

/-- Witness for C7 at d1 = 1, d2 = 2. -/
theorem C7_fill_toggle_and_overwrite_witness :
    update_value_fill (update_value_fill Value.Empty 1) 1 = Value.Empty
    ∧ update_value_fill (update_value_fill Value.Empty 1) 2 = Value.Filled 2 :=
  C7_fill_toggle_and_overwrite 1 2 (by decide) (by decide) (by decide)
    (by decide) (by decide)

/-- C8: a click whose target is none clears the whole selection
unconditionally — for every board and every setting of the multi and drag
flags, handle_clicks returns the board with each cell unselected and its
value untouched. -/
theorem C8_click_outside_clears_selection (board : List ClickCell)
    (multi drag : Bool) :
    Actions.handle_clicks board ⟨none, multi, drag⟩
      = some (board.map fun c => (false, c.2)) := by
  simp [Actions.handle_clicks, clear_selection]

/-- C9: CellIndex::get returns some entity only when that entity's stored
bounding box contains the query position with inclusive bounds on both
axes, and returns none whenever no indexed bounding box contains the
position. -/
theorem C9_cell_index_lookup (cell_map : List (ℕ × BoundingBox))
    (position : ℚ × ℚ) :
    (∀ e, CellIndex.get cell_map position = some e →
      ∃ bounding_box, (e, bounding_box) ∈ cell_map
        ∧ in_bounds bounding_box position = true)
    ∧ ((∀ p ∈ cell_map, in_bounds p.2 position = false) →
      CellIndex.get cell_map position = none) := by
  induction cell_map with
  | nil =>
    constructor
    · intro e he; simp [CellIndex.get] at he
    · intro _; rfl
  | cons hd tl ih =>
    obtain ⟨entity, bounding_box⟩ := hd
    constructor
    · intro e he
      rw [CellIndex.get] at he
      by_cases hb : in_bounds bounding_box position
      · rw [if_pos hb] at he
        exact ⟨bounding_box, by simp [← Option.some_inj.mp he], hb⟩
      · rw [if_neg hb] at he
        obtain ⟨box2, hmem, hbox2⟩ := ih.1 e he
        exact ⟨box2, List.mem_cons_of_mem _ hmem, hbox2⟩
    · intro hnone
      rw [CellIndex.get]
      have hhd : in_bounds bounding_box position = false :=
        hnone (entity, bounding_box) (List.mem_cons_self _ _)
      rw [if_neg (by simp [hhd])]
      exact ih.2 fun p hp => hnone p (List.mem_cons_of_mem _ hp)

/-- Witness for C9: with a single indexed box from (0,0) to (10,10), a
query at (100,100), contained in no box, returns none. -/
theorem C9_cell_index_lookup_witness :
    CellIndex.get [(7, demoBox)] (100, 100) = none :=
  (C9_cell_index_lookup [(7, demoBox)] (100, 100)).2 (by decide)

/-- C10: match-select on a sole selected Empty cell selects exactly the
cells whose Value is Empty: a non-drag, non-multi click on a selected cell
holding Empty, when at most one cell is selected, yields the board in which
a cell is selected iff its Value equals Empty. -/
theorem C10_match_select_empty (board : List ClickCell) (i : ℕ)
    (hget : board[i]? = some (true, Value.Empty))
    (hcount : n_selected board ≤ 1) :
    Actions.handle_clicks board ⟨some i, false, false⟩
      = some (board.map fun c => (decide (c.2 = Value.Empty), c.2)) := by
  simp [Actions.handle_clicks, hget, hcount]

/-- Witness for C10: double-clicking the lone selected Empty cell on a
board that also holds a Filled cell, a Marked cell and another Empty cell
selects exactly the two Empty cells. -/
theorem C10_match_select_empty_witness :
    Actions.handle_clicks emptiesBoard ⟨some 0, false, false⟩
      = some [(true, Value.Empty), (false, Value.Filled 2),
              (false, Value.Marked (CenterMarks.new 5) CornerMarks.default),
              (true, Value.Empty)] := by
  rw [C10_match_select_empty emptiesBoard 0 rfl (by decide)]
  decide

end BevySudoku
